import Mathlib

/-!
Caliper event recorder: the buffered record store.

A shallow embedding of `src/services/recorder/Recorder.cpp` (class `Recorder`):
the flattened record buffer, the admission test of `buffer_record`, the decode
loop of `flush_buffer`, and the callbacks wired by `register_callbacks`.

Conventions of the embedding.

* `vector<T>::size_type` values (vector sizes, the cursor `dptr`, the two
  configured capacities) are natural numbers.  A vector never holds more than
  `max_size()` elements, so `size() + 1` and `dptr++` cannot wrap; the only
  place where unsigned arithmetic can wrap is where a negative `int` is
  converted to `size_type` (`size() + total`, `dptr += count[n]`), and that
  conversion is modelled by `size_plus_int`.
* `int` values are integers.  Signed overflow of `total` is undefined behaviour
  in C++ and is outside the model.
* Arrays received through pointers (`const int* count`, `const Variant** data`)
  are index functions: the code only reads `count[n]` for `n < num_entries` and
  `data[entry][n]` for `n < count[entry]`.
* An execution that fails an `assert` or indexes a vector or a local array out
  of bounds ends in a `Fault`.
* The output stream is the list of calls made to `CsvSpec::write_record`; an
  execution that ends in a `Fault` reports no writes.
-/

namespace Caliper

/-- Modelled from the spec: the `Variant` class (the spec's "Value", a small
tagged scalar: integer, unsigned, string, boolean) is declared outside `src/`. -/
inductive Variant where
  | v_int (i : Int)
  | v_uint (u : Nat)
  | v_bool (b : Bool)
  | v_string (s : String)
  deriving DecidableEq, Repr

/-- Modelled from the spec: `Variant::to_int` is declared outside `src/`.  A
count is wrapped "as an integer Value", and reading an integer Value back gives
that integer.  The other tags are never read back by the recorder; they yield 0
here and no theorem depends on it. -/
def Variant.to_int : Variant → Int
  | .v_int i => i
  | .v_uint _ => 0
  | .v_bool _ => 0
  | .v_string _ => 0

/-- Modelled from the spec: `RecordDescriptor` is declared outside `src/`: the
number of slots `num_entries` and the slot identifiers.  The recorder reads
only `num_entries`. -/
structure RecordDescriptor where
  num_entries : Nat
  entries : List Nat
  deriving DecidableEq, Repr

/-- The arguments of one `write_record` event: `(rec, count, data)`. -/
structure Record where
  descriptor : RecordDescriptor
  count : Nat → Int
  data : Nat → Nat → Variant

/-- What one call of the record encoder is given: the descriptor, `count[n]`
for every slot `n < num_entries`, and the `count[n]` values behind `data[n]`. -/
structure EncoderCall where
  descriptor : RecordDescriptor
  count : List Int
  data : List (List Variant)
  deriving DecidableEq, Repr

/-- Modelled from the spec: `CsvSpec::write_record(stream, rec, count, data)`
is declared outside `src/`; it renders one `(descriptor, counts, values)`
tuple.  The model records the tuple that the encoder reads through its
arguments. -/
def CsvSpec.write_record (rec : RecordDescriptor) (count : Nat → Int)
    (data : Nat → Nat → Variant) : EncoderCall :=
  { descriptor := rec
    count := (List.range rec.num_entries).map count
    data := (List.range rec.num_entries).map
      (fun n => (List.range (count n).toNat).map (data n)) }

/-- The tuple of a record as the encoder sees it. -/
def Record.tuple (r : Record) : EncoderCall :=
  CsvSpec.write_record r.descriptor r.count r.data

/-- Abnormal termination: a failed `assert`, or an index outside a vector. -/
inductive Fault where
  | assertion_failed
  | out_of_range
  deriving DecidableEq, Repr

/-- The members of `class Recorder` that the buffering code uses. -/
structure Recorder where
  m_record_buffer : List RecordDescriptor
  m_data_buffer : List Variant
  m_buffer_can_grow : Bool
  m_record_buffer_size : Nat
  m_data_buffer_size : Nat
  deriving DecidableEq, Repr

/-- The result of a member function that may write records. -/
abbrev Outcome := Except Fault (Recorder × List EncoderCall)

/-- `init_recorder`: the three settings are read from the configuration; both
vectors are empty (`reserve` does not change their size). -/
def init_recorder (buffer_can_grow : Bool) (record_buffer_size data_buffer_size : Nat) :
    Recorder :=
  { m_record_buffer := []
    m_data_buffer := []
    m_buffer_can_grow := buffer_can_grow
    m_record_buffer_size := record_buffer_size
    m_data_buffer_size := data_buffer_size }

/-- `const int MAX_RECORD = 16;` -/
def MAX_RECORD : Nat := 16

/-- `a + i` for `a` of type `size_type` and `i` of type `int`: the `int` is
converted to the 64-bit unsigned type, so a sum below zero wraps around. -/
def size_plus_int (a : Nat) (i : Int) : Nat :=
  if 0 ≤ (a : Int) + i then ((a : Int) + i).toNat
  else ((a : Int) + i + 2 ^ 64).toNat

/-- First inner loop of `flush_buffer`:
`for (n < rec.num_entries) count[n] = m_data_buffer[dptr++].to_int();`
Returns the local `count` array and the advanced cursor. -/
def flush_buffer_counts (buf : List Variant) : Nat → Nat → Except Fault (List Int × Nat)
  | 0, dptr => .ok ([], dptr)
  | k + 1, dptr =>
    match buf[dptr]? with
    | none => .error .out_of_range
    | some v =>
      match flush_buffer_counts buf k (dptr + 1) with
      | .error e => .error e
      | .ok (cs, d) => .ok (v.to_int :: cs, d)

/-- Second inner loop of `flush_buffer`:
`for (n < rec.num_entries) { data[n] = &m_data_buffer[dptr]; dptr += count[n]; }`
The line takes the address of `m_data_buffer[dptr]` and does not read the
element; the pointer `data[n]` is represented by the `count[n]` values that the
encoder reads through it.  For a slot without values at the end of the vector
the address is the one past the last element.  A range that leaves the vector
is out of range. -/
def flush_buffer_data (buf : List Variant) : List Int → Nat →
    Except Fault (List (List Variant) × Nat)
  | [], dptr => .ok ([], dptr)
  | c :: cs, dptr =>
    match flush_buffer_data buf cs (size_plus_int dptr c) with
    | .error e => .error e
    | .ok (ds, d) =>
      if dptr + c.toNat ≤ buf.length then .ok ((buf.drop dptr).take c.toNat :: ds, d)
      else .error .out_of_range

/-- One iteration of the outer loop of `flush_buffer`: the assertion, the two
inner loops, and the encoder call.  Returns the call and the cursor. -/
def flush_buffer_record (buf : List Variant) (rec : RecordDescriptor) (dptr : Nat) :
    Except Fault (EncoderCall × Nat) :=
  if rec.num_entries < MAX_RECORD then
    match flush_buffer_counts buf rec.num_entries dptr with
    | .error e => .error e
    | .ok (count, d1) =>
      match flush_buffer_data buf count d1 with
      | .error e => .error e
      | .ok (data, d2) => .ok ({ descriptor := rec, count := count, data := data }, d2)
  else .error .assertion_failed

/-- The outer loop of `flush_buffer`,
`for (const RecordDescriptor& rec : m_record_buffer)`, started with cursor
`dptr`.  Returns, for every record, the encoder call and the value of `dptr`
after the record was decoded. -/
def flush_buffer_loop (buf : List Variant) : List RecordDescriptor → Nat →
    Except Fault (List (EncoderCall × Nat))
  | [], _ => .ok []
  | rec :: rest, dptr =>
    match flush_buffer_record buf rec dptr with
    | .error e => .error e
    | .ok (call, d1) =>
      match flush_buffer_loop buf rest d1 with
      | .error e => .error e
      | .ok steps => .ok ((call, d1) :: steps)

/-- `Recorder::flush_buffer`. -/
def Recorder.flush_buffer (s : Recorder) : Outcome :=
  match flush_buffer_loop s.m_data_buffer s.m_record_buffer 0 with
  | .error e => .error e
  | .ok steps =>
    .ok ({ s with m_record_buffer := [], m_data_buffer := [] }, steps.map Prod.fst)

/-- The local `total` of `buffer_record`:
`int total = rec.num_entries; for (n < rec.num_entries) total += count[n];` -/
def buffer_record_total (rec : RecordDescriptor) (count : Nat → Int) : Int :=
  (List.range rec.num_entries).foldl (fun total n => total + count n) (rec.num_entries : Int)

/-- The admission test of `buffer_record`. -/
def Recorder.admits (s : Recorder) (rec : RecordDescriptor) (count : Nat → Int) : Bool :=
  s.m_buffer_can_grow ||
    (decide (s.m_record_buffer.length + 1 < s.m_record_buffer_size) &&
     decide (size_plus_int s.m_data_buffer.length (buffer_record_total rec count)
        < s.m_data_buffer_size))

/-- `Recorder::buffer_record`. -/
def Recorder.buffer_record (s : Recorder) (rec : RecordDescriptor) (count : Nat → Int)
    (data : Nat → Nat → Variant) : Outcome :=
  if s.admits rec count then
    let buf1 := s.m_data_buffer ++ (List.range rec.num_entries).map (fun n => Variant.v_int (count n))
    let buf2 := buf1 ++ (List.range rec.num_entries).flatMap
      (fun entry => (List.range (count entry).toNat).map (fun n => data entry n))
    .ok ({ s with m_record_buffer := s.m_record_buffer ++ [rec], m_data_buffer := buf2 }, [])
  else
    match s.flush_buffer with
    | .error e => .error e
    | .ok (s1, out) => .ok (s1, out ++ [CsvSpec.write_record rec count data])

/-- The signature of a `write_record` subscriber, with the recorder state made
explicit. -/
abbrev RecordFn :=
  Recorder → RecordDescriptor → (Nat → Int) → (Nat → Nat → Variant) → Outcome

/-- A lambda connected by `register_callbacks`: whether its body starts with
`lock_guard<mutex> lock(m_stream_mutex);`, and what it runs. -/
structure Callback (α : Type) where
  lock_guard : Bool
  body : α

/-- The lambda `recfn`: takes the lock and writes the record directly. -/
def recfn : Callback RecordFn :=
  { lock_guard := true
    body := fun s rec count data => .ok (s, [CsvSpec.write_record rec count data]) }

/-- The lambda `buffn`: takes the lock and calls `buffer_record`. -/
def buffn : Callback RecordFn :=
  { lock_guard := true
    body := fun s rec count data => s.buffer_record rec count data }

/-- The lambda connected to `finish_evt`: `[&](Caliper*){ flush_buffer(); }`. -/
def finish_fn : Callback (Recorder → Outcome) :=
  { lock_guard := false
    body := fun s => s.flush_buffer }

/-- The subscriptions made by `register_callbacks` that touch the store. -/
structure Events where
  write_record : Callback RecordFn
  finish_evt : Callback (Recorder → Outcome)

/-- `Recorder::register_callbacks`. -/
def Recorder.register_callbacks (s : Recorder) : Events :=
  { write_record :=
      if !s.m_buffer_can_grow && s.m_record_buffer_size == 0 then recfn else buffn
    finish_evt := finish_fn }

/-- A sequence of `write_record` events delivered to the subscriber `fn`, one
after the other; the writes are collected in order. -/
def emit (fn : RecordFn) (s : Recorder) : List Record → Outcome
  | [] => .ok (s, [])
  | r :: rs =>
    match fn s r.descriptor r.count r.data with
    | .error e => .error e
    | .ok (s1, out1) =>
      match emit fn s1 rs with
      | .error e => .error e
      | .ok (s2, out2) => .ok (s2, out1 ++ out2)

/-- A sequence of `buffer_record` calls. -/
def buffer_records (s : Recorder) (rs : List Record) : Outcome :=
  emit buffn.body s rs

/-- A record as the instrumentation core emits it: fewer than `MAX_RECORD`
slots, and every `count[n]` is a number of values. -/
def Record.WellFormed (r : Record) : Prop :=
  r.descriptor.num_entries < MAX_RECORD ∧ ∀ n, n < r.descriptor.num_entries → 0 ≤ r.count n

instance (r : Record) : Decidable r.WellFormed := by
  unfold Record.WellFormed; infer_instance

/-- The elements that an admitted record adds to `m_data_buffer`: first the
counts, then the values of each slot. -/
def Record.flat (r : Record) : List Variant :=
  (List.range r.descriptor.num_entries).map (fun n => Variant.v_int (r.count n)) ++
    (List.range r.descriptor.num_entries).flatMap
      (fun entry => (List.range (r.count entry).toNat).map (fun n => r.data entry n))

/-- The store holds exactly the records `pending`, in this order. -/
def Recorder.Holds (s : Recorder) (pending : List Record) : Prop :=
  s.m_record_buffer = pending.map Record.descriptor ∧
  s.m_data_buffer = pending.flatMap Record.flat

/-- The slots of a record, as lists of values. -/
def Record.slots (r : Record) : List (List Variant) :=
  (List.range r.descriptor.num_entries).map
    (fun n => (List.range (r.count n).toNat).map (r.data n))


/-- The value of `dptr` after each of the records `rs` has been decoded,
starting from `d`. -/
def cursors (d : Nat) : List Record → List Nat
  | [] => []
  | r :: rs => (d + r.flat.length) :: cursors (d + r.flat.length) rs


/-- The store states reachable from the empty store of a configuration by
calls of `buffer_record` (with well-formed records) and `flush_buffer` that
return. -/
inductive Reachable (g : Bool) (n d : Nat) : Recorder → Prop where
  | init : Reachable g n d (init_recorder g n d)
  | buffer_record (s s1 : Recorder) (out : List EncoderCall) (r : Record) :
      Reachable g n d s → r.WellFormed →
      s.buffer_record r.descriptor r.count r.data = .ok (s1, out) → Reachable g n d s1
  | flush_buffer (s s1 : Recorder) (out : List EncoderCall) :
      Reachable g n d s → s.flush_buffer = .ok (s1, out) → Reachable g n d s1

/-- A single-slot record with one value, the integer `k`. -/
def single_slot_record (k : Int) : Record :=
  { descriptor := { num_entries := 1, entries := [0] }
    count := fun _ => 1
    data := fun _ _ => Variant.v_int k }

/-- Scenario B of the specification: five single-slot, single-value records. -/
def scenario_B : List Record :=
  [single_slot_record 1, single_slot_record 2, single_slot_record 3,
   single_slot_record 4, single_slot_record 5]

/-- A record with three slots holding zero, two and one values. -/
def mixed_record : Record :=
  { descriptor := { num_entries := 3, entries := [4, 5, 6] }
    count := fun n => if n = 0 then 0 else if n = 1 then 2 else 1
    data := fun n k => if n = 1 then Variant.v_uint (10 + k) else Variant.v_bool true }

/-- A record without slots. -/
def empty_record : Record :=
  { descriptor := { num_entries := 0, entries := [] }
    count := fun _ => 0
    data := fun _ _ => Variant.v_int 0 }

/-- A record with `MAX_RECORD` slots, each without values. -/
def wide_record : Record :=
  { descriptor := { num_entries := 16, entries := List.range 16 }
    count := fun _ => 0
    data := fun _ _ => Variant.v_int 0 }

/-- A record with one slot and the count -5. -/
def negative_count_record : Record :=
  { descriptor := { num_entries := 1, entries := [0] }
    count := fun _ => -5
    data := fun _ _ => Variant.v_int 0 }

/-- A record with two slots and the counts -1 and 2. -/
def mixed_sign_record : Record :=
  { descriptor := { num_entries := 2, entries := [0, 1] }
    count := fun n => if n = 0 then -1 else 2
    data := fun _ k => Variant.v_uint k }


/-! ## Decoding the flattened buffer -/

theorem size_plus_int_natCast (a n : Nat) : size_plus_int a (n : Int) = a + n := by
  unfold size_plus_int
  have h : (0 : Int) ≤ (a : Int) + (n : Int) := by omega
  rw [if_pos h]
  omega

theorem flush_buffer_counts_flat (cs : List Int) :
    ∀ (pre post : List Variant),
      flush_buffer_counts (pre ++ cs.map Variant.v_int ++ post) cs.length pre.length
        = .ok (cs, pre.length + cs.length) := by
  induction cs with
  | nil => intro pre post; simp [flush_buffer_counts]
  | cons c cs ih =>
    intro pre post
    have hbuf : pre ++ (c :: cs).map Variant.v_int ++ post
        = (pre ++ [Variant.v_int c]) ++ cs.map Variant.v_int ++ post := by simp
    have hget : (pre ++ (c :: cs).map Variant.v_int ++ post)[pre.length]?
        = some (Variant.v_int c) := by
      rw [List.append_assoc, List.getElem?_append_right (Nat.le_refl _)]
      simp
    have hrec := ih (pre ++ [Variant.v_int c]) post
    rw [← hbuf] at hrec
    simp only [List.length_append, List.length_singleton] at hrec
    simp only [List.length_cons, flush_buffer_counts, hget, hrec, Variant.to_int]
    congr 2
    omega

theorem flush_buffer_data_flat (slots : List (List Variant)) :
    ∀ (pre post : List Variant),
      flush_buffer_data (pre ++ slots.flatten ++ post)
          (slots.map (fun l => (l.length : Int))) pre.length
        = .ok (slots, pre.length + slots.flatten.length) := by
  induction slots with
  | nil => intro pre post; simp [flush_buffer_data]
  | cons l slots ih =>
    intro pre post
    have hbuf : pre ++ (l :: slots).flatten ++ post
        = (pre ++ l) ++ slots.flatten ++ post := by simp
    have hrec := ih (pre ++ l) post
    rw [← hbuf] at hrec
    simp only [List.length_append] at hrec
    have hle : pre.length + ((l.length : Int)).toNat
        ≤ (pre ++ (l :: slots).flatten ++ post).length := by
      simp only [List.length_append, List.flatten_cons, Int.toNat_ofNat]
      omega
    have hslice : ((pre ++ (l :: slots).flatten ++ post).drop pre.length).take
        ((l.length : Int)).toNat = l := by
      simp only [List.flatten_cons, List.append_assoc, Int.toNat_ofNat]
      rw [List.drop_left, List.take_left]
    simp only [List.map_cons, flush_buffer_data, size_plus_int_natCast, hrec, if_pos hle, hslice]
    congr 2
    simp only [List.flatten_cons, List.length_append]
    omega

theorem Record.flat_eq (r : Record) :
    r.flat = ((List.range r.descriptor.num_entries).map r.count).map Variant.v_int
      ++ r.slots.flatten := by
  simp [Record.flat, Record.slots, List.flatMap, Function.comp_def]

theorem Record.tuple_eq (r : Record) :
    r.tuple = { descriptor := r.descriptor
                count := (List.range r.descriptor.num_entries).map r.count
                data := r.slots } := rfl

theorem Record.counts_eq_lengths (r : Record)
    (h : ∀ n, n < r.descriptor.num_entries → 0 ≤ r.count n) :
    (List.range r.descriptor.num_entries).map r.count
      = r.slots.map (fun l => (l.length : Int)) := by
  simp only [Record.slots, List.map_map]
  apply List.map_congr_left
  intro n hn
  have h0 := h n (List.mem_range.mp hn)
  simp only [Function.comp, List.length_map, List.length_range]
  omega

theorem flush_buffer_record_flat (r : Record) (hwf : r.WellFormed) (pre post : List Variant) :
    flush_buffer_record (pre ++ r.flat ++ post) r.descriptor pre.length
      = .ok (r.tuple, pre.length + r.flat.length) := by
  obtain ⟨hmax, hcount⟩ := hwf
  have hc := flush_buffer_counts_flat ((List.range r.descriptor.num_entries).map r.count)
    pre (r.slots.flatten ++ post)
  have hd := flush_buffer_data_flat r.slots
    (pre ++ ((List.range r.descriptor.num_entries).map r.count).map Variant.v_int) post
  have hb1 : pre ++ r.flat ++ post
      = pre ++ ((List.range r.descriptor.num_entries).map r.count).map Variant.v_int
        ++ (r.slots.flatten ++ post) := by
    rw [Record.flat_eq]; simp
  have hb2 : pre ++ r.flat ++ post
      = pre ++ ((List.range r.descriptor.num_entries).map r.count).map Variant.v_int
        ++ r.slots.flatten ++ post := by
    rw [Record.flat_eq]; simp
  rw [← hb1] at hc
  rw [← hb2, ← Record.counts_eq_lengths r hcount] at hd
  simp only [List.length_map, List.length_range, List.length_append] at hc hd
  unfold flush_buffer_record
  rw [if_pos hmax, hc]
  simp only [hd, Record.tuple_eq]
  congr 2
  rw [Record.flat_eq]
  simp only [List.length_append, List.length_map, List.length_range]
  omega

theorem cursors_length (l : List Record) : ∀ d : Nat, (cursors d l).length = l.length := by
  induction l with
  | nil => intro d; rfl
  | cons a l ih => intro d; simp [cursors, ih]

theorem flush_buffer_loop_flat (pending : List Record) :
    ∀ (pre : List Variant), (∀ r ∈ pending, r.WellFormed) →
      flush_buffer_loop (pre ++ pending.flatMap Record.flat)
          (pending.map Record.descriptor) pre.length
        = .ok ((pending.map Record.tuple).zip (cursors pre.length pending)) := by
  induction pending with
  | nil => intro pre _; simp [flush_buffer_loop, cursors]
  | cons r rest ih =>
    intro pre hwf
    have hr := flush_buffer_record_flat r (hwf r (List.mem_cons_self _ _)) pre
      (rest.flatMap Record.flat)
    have hrest := ih (pre ++ r.flat) (fun x hx => hwf x (List.mem_cons_of_mem _ hx))
    have hbuf : pre ++ (r :: rest).flatMap Record.flat
        = pre ++ r.flat ++ rest.flatMap Record.flat := by
      simp [List.flatMap_cons]
    rw [← hbuf] at hr hrest
    simp only [List.length_append] at hrest
    simp only [List.map_cons, flush_buffer_loop, hr, hrest, cursors, List.zip_cons_cons]

theorem flush_buffer_holds (s : Recorder) (pending : List Record) (h : s.Holds pending)
    (hwf : ∀ r ∈ pending, r.WellFormed) :
    s.flush_buffer
      = .ok ({ s with m_record_buffer := [], m_data_buffer := [] }, pending.map Record.tuple) := by
  obtain ⟨hrec, hdata⟩ := h
  have hloop := flush_buffer_loop_flat pending [] hwf
  simp only [List.nil_append, List.length_nil] at hloop
  unfold Recorder.flush_buffer
  rw [hrec, hdata, hloop]
  have hfst : ((pending.map Record.tuple).zip (cursors 0 pending)).map Prod.fst
      = pending.map Record.tuple := by
    apply List.map_fst_zip
    simp [cursors_length]
  simp only [hfst]



/-! ## Sequences of `buffer_record` calls -/

theorem Recorder.buffer_record_admitted (s : Recorder) (r : Record)
    (h : s.admits r.descriptor r.count = true) :
    s.buffer_record r.descriptor r.count r.data
      = .ok ({ s with m_record_buffer := s.m_record_buffer ++ [r.descriptor],
                      m_data_buffer := s.m_data_buffer ++ r.flat }, []) := by
  unfold Recorder.buffer_record
  rw [if_pos h]
  simp [Record.flat]

theorem Recorder.buffer_record_rejected (s : Recorder) (r : Record)
    (h : s.admits r.descriptor r.count = false) :
    s.buffer_record r.descriptor r.count r.data
      = match s.flush_buffer with
        | .error e => .error e
        | .ok (s1, out) => .ok (s1, out ++ [r.tuple]) := by
  unfold Recorder.buffer_record
  simp [h, Record.tuple]

theorem buffer_records_nil (s : Recorder) : buffer_records s [] = .ok (s, []) := rfl

theorem buffer_records_cons (s : Recorder) (r : Record) (rs : List Record) :
    buffer_records s (r :: rs)
      = match s.buffer_record r.descriptor r.count r.data with
        | .error e => .error e
        | .ok (s1, out1) =>
          match buffer_records s1 rs with
          | .error e => .error e
          | .ok (s2, out2) => .ok (s2, out1 ++ out2) := rfl

theorem Recorder.holds_nil (g : Bool) (n d : Nat) : (init_recorder g n d).Holds [] := by
  simp [Recorder.Holds, init_recorder]

/-- From a store that holds well-formed records, a sequence of well-formed
appends returns, the store again holds well-formed records, and the writes made
so far followed by the records still pending are the records seen so far. -/
theorem buffer_records_holds (rs : List Record) :
    ∀ (s : Recorder) (pending : List Record), s.Holds pending →
      (∀ r ∈ pending, r.WellFormed) → (∀ r ∈ rs, r.WellFormed) →
      ∃ s1 out pending1, buffer_records s rs = .ok (s1, out) ∧ s1.Holds pending1 ∧
        (∀ r ∈ pending1, r.WellFormed) ∧
        out ++ pending1.map Record.tuple = pending.map Record.tuple ++ rs.map Record.tuple ∧
        s1.m_buffer_can_grow = s.m_buffer_can_grow ∧
        s1.m_record_buffer_size = s.m_record_buffer_size ∧
        s1.m_data_buffer_size = s.m_data_buffer_size := by
  induction rs with
  | nil =>
    intro s pending h hp _
    exact ⟨s, [], pending, rfl, h, hp, by simp, rfl, rfl, rfl⟩
  | cons r rs ih =>
    intro s pending h hp hrs
    have hr : r.WellFormed := hrs r (List.mem_cons_self _ _)
    have hrest : ∀ x ∈ rs, x.WellFormed := fun x hx => hrs x (List.mem_cons_of_mem _ hx)
    cases hadm : s.admits r.descriptor r.count with
    | true =>
      have hstep := s.buffer_record_admitted r hadm
      have hholds : ({ s with m_record_buffer := s.m_record_buffer ++ [r.descriptor],
                              m_data_buffer := s.m_data_buffer ++ r.flat } : Recorder).Holds
          (pending ++ [r]) := by
        obtain ⟨h1, h2⟩ := h
        constructor
        · simp [h1]
        · simp [h2, List.flatMap_append]
      have hp1 : ∀ x ∈ pending ++ [r], x.WellFormed := by
        intro x hx
        rcases List.mem_append.mp hx with hx | hx
        · exact hp x hx
        · rw [List.mem_singleton.mp hx]; exact hr
      obtain ⟨s1, out, pending1, hrun, hh, hw, hout, hg, hn, hd⟩ := ih _ _ hholds hp1 hrest
      refine ⟨s1, out, pending1, ?_, hh, hw, ?_, hg, hn, hd⟩
      · rw [buffer_records_cons, hstep]
        simp only [hrun, List.nil_append]
      · rw [hout]; simp
    | false =>
      have hflush := flush_buffer_holds s pending h hp
      have hstep := s.buffer_record_rejected r hadm
      rw [hflush] at hstep
      have hholds : ({ s with m_record_buffer := [], m_data_buffer := [] } : Recorder).Holds [] := by
        simp [Recorder.Holds]
      obtain ⟨s1, out, pending1, hrun, hh, hw, hout, hg, hn, hd⟩ :=
        ih _ [] hholds (by simp) hrest
      refine ⟨s1, pending.map Record.tuple ++ [r.tuple] ++ out, pending1, ?_, hh, hw, ?_,
        hg, hn, hd⟩
      · rw [buffer_records_cons, hstep]
        simp only [hrun]
      · rw [List.append_assoc, hout]; simp

/-- With growth enabled every record is admitted: nothing is written and the
store holds all records. -/
theorem buffer_records_growable (rs : List Record) :
    ∀ (s : Recorder), s.m_buffer_can_grow = true →
      buffer_records s rs
        = .ok ({ s with m_record_buffer := s.m_record_buffer ++ rs.map Record.descriptor,
                        m_data_buffer := s.m_data_buffer ++ rs.flatMap Record.flat }, []) := by
  induction rs with
  | nil => intro s _; simp [buffer_records_nil]
  | cons r rs ih =>
    intro s hg
    have hadm : s.admits r.descriptor r.count = true := by simp [Recorder.admits, hg]
    have hstep := s.buffer_record_admitted r hadm
    have hrec := ih { s with m_record_buffer := s.m_record_buffer ++ [r.descriptor],
                             m_data_buffer := s.m_data_buffer ++ r.flat } hg
    rw [buffer_records_cons, hstep]
    simp only [hrec, List.append_nil]
    simp [List.flatMap_cons]

/-- A finishing flush after any sequence of well-formed appends: both calls
return, the store is empty again, and all writes together are the appended
records in order. -/
theorem buffer_records_then_flush (g : Bool) (n d : Nat) (rs : List Record)
    (hwf : ∀ r ∈ rs, r.WellFormed) :
    ∃ s out1 out2, buffer_records (init_recorder g n d) rs = .ok (s, out1) ∧
      s.flush_buffer = .ok (init_recorder g n d, out2) ∧
      out1 ++ out2 = rs.map Record.tuple := by
  obtain ⟨s, out, pending, hrun, hh, hw, hout, hg, hn, hd⟩ :=
    buffer_records_holds rs (init_recorder g n d) [] (Recorder.holds_nil g n d) (by simp) hwf
  refine ⟨s, out, pending.map Record.tuple, hrun, ?_, by simpa using hout⟩
  rw [flush_buffer_holds s pending hh hw]
  simp only [init_recorder] at hg hn hd
  simp [init_recorder, hg, hn, hd]


/-! ## Single calls -/

theorem Recorder.flush_buffer_ok (s s1 : Recorder) (out : List EncoderCall)
    (h : s.flush_buffer = .ok (s1, out)) :
    s1 = { s with m_record_buffer := [], m_data_buffer := [] } := by
  unfold Recorder.flush_buffer at h
  split at h
  · cases h
  · simp only [Except.ok.injEq, Prod.mk.injEq] at h
    exact h.1.symm

theorem Recorder.flush_buffer_empty (s : Recorder) (h : s.m_record_buffer = []) :
    s.flush_buffer = .ok ({ s with m_record_buffer := [], m_data_buffer := [] }, []) := by
  unfold Recorder.flush_buffer
  rw [h]
  rfl

theorem foldl_add_eq_sum (count : Nat → Int) (l : List Nat) :
    ∀ a : Int, l.foldl (fun total n => total + count n) a = a + (l.map count).sum := by
  induction l with
  | nil => intro a; simp
  | cons x l ih => intro a; simp only [List.foldl_cons, ih, List.map_cons, List.sum_cons]; omega

theorem buffer_record_total_eq (rec : RecordDescriptor) (count : Nat → Int) :
    buffer_record_total rec count
      = (rec.num_entries : Int) + ((List.range rec.num_entries).map count).sum :=
  foldl_add_eq_sum count _ _

theorem sum_lengths_cast {α : Type} (L : List (List α)) :
    (((L.map List.length).sum : Nat) : Int) = (L.map (fun l => (l.length : Int))).sum := by
  induction L with
  | nil => simp
  | cons l L ih => simp only [List.map_cons, List.sum_cons, Nat.cast_add, ih]

theorem Record.flat_length (r : Record)
    (h : ∀ n, n < r.descriptor.num_entries → 0 ≤ r.count n) :
    (r.flat.length : Int)
      = (r.descriptor.num_entries : Int)
        + ((List.range r.descriptor.num_entries).map r.count).sum := by
  rw [Record.flat_eq, Record.counts_eq_lengths r h, ← sum_lengths_cast]
  simp only [List.length_append, List.length_map, List.length_flatten, Nat.cast_add]
  simp [Record.slots]

theorem counts_sum_nonneg (r : Record)
    (h : ∀ n, n < r.descriptor.num_entries → 0 ≤ r.count n) :
    0 ≤ ((List.range r.descriptor.num_entries).map r.count).sum := by
  apply List.sum_nonneg
  intro x hx
  obtain ⟨n, hn, rfl⟩ := List.mem_map.mp hx
  exact h n (List.mem_range.mp hn)

theorem size_plus_int_nonneg (a : Nat) (i : Int) (h : 0 ≤ i) :
    ((size_plus_int a i : Nat) : Int) = (a : Int) + i := by
  unfold size_plus_int
  have h0 : (0 : Int) ≤ (a : Int) + i := by omega
  rw [if_pos h0]
  omega

/-- Without growth, a returning sequence of appends keeps the number of
pending records below the configured record capacity, or at zero. -/
theorem buffer_records_capacity (rs : List Record) :
    ∀ (s s1 : Recorder) (out : List EncoderCall), s.m_buffer_can_grow = false →
      (s.m_record_buffer = [] ∨ s.m_record_buffer.length < s.m_record_buffer_size) →
      buffer_records s rs = .ok (s1, out) →
      (s1.m_record_buffer = [] ∨ s1.m_record_buffer.length < s.m_record_buffer_size) := by
  induction rs with
  | nil =>
    intro s s1 out _ hinv h
    simp only [buffer_records_nil, Except.ok.injEq, Prod.mk.injEq] at h
    rw [← h.1]; exact hinv
  | cons r rs ih =>
    intro s s1 out hg hinv h
    rw [buffer_records_cons] at h
    cases hadm : s.admits r.descriptor r.count with
    | true =>
      rw [s.buffer_record_admitted r hadm] at h
      simp only at h
      cases hrun : buffer_records { s with m_record_buffer := s.m_record_buffer ++ [r.descriptor],
                                           m_data_buffer := s.m_data_buffer ++ r.flat } rs with
      | error e => rw [hrun] at h; cases h
      | ok p =>
        obtain ⟨s2, out2⟩ := p
        rw [hrun] at h
        simp only [Except.ok.injEq, Prod.mk.injEq] at h
        have hlt : s.m_record_buffer.length + 1 < s.m_record_buffer_size := by
          simp only [Recorder.admits, hg, Bool.false_or, Bool.and_eq_true,
            decide_eq_true_eq] at hadm
          exact hadm.1
        have := ih { s with m_record_buffer := s.m_record_buffer ++ [r.descriptor],
                            m_data_buffer := s.m_data_buffer ++ r.flat } s2 out2 hg
          (Or.inr (by simpa using hlt)) hrun
        rw [← h.1]; exact this
    | false =>
      rw [s.buffer_record_rejected r hadm] at h
      cases hf : s.flush_buffer with
      | error e => rw [hf] at h; cases h
      | ok p =>
        obtain ⟨s0, out0⟩ := p
        rw [hf] at h
        simp only at h
        have hs0 := s.flush_buffer_ok s0 out0 hf
        cases hrun : buffer_records s0 rs with
        | error e => rw [hrun] at h; cases h
        | ok q =>
          obtain ⟨s2, out2⟩ := q
          rw [hrun] at h
          simp only [Except.ok.injEq, Prod.mk.injEq] at h
          have := ih s0 s2 out2 (by rw [hs0]; exact hg) (Or.inl (by rw [hs0])) hrun
          rw [hs0] at this
          rw [← h.1]; exact this

theorem reachable_holds (g : Bool) (n d : Nat) (s : Recorder) (h : Reachable g n d s) :
    ∃ pending, s.Holds pending ∧ (∀ r ∈ pending, r.WellFormed) ∧
      s.m_buffer_can_grow = g ∧ s.m_record_buffer_size = n ∧ s.m_data_buffer_size = d := by
  induction h with
  | init => exact ⟨[], Recorder.holds_nil g n d, by simp, rfl, rfl, rfl⟩
  | buffer_record s s1 out r _ hwf hstep ih =>
    obtain ⟨pending, hh, hp, hg, hn, hd⟩ := ih
    obtain ⟨s2, out2, pending2, hrun, hh2, hp2, _, hg2, hn2, hd2⟩ :=
      buffer_records_holds [r] s pending hh hp (by simpa using hwf)
    rw [buffer_records_cons, hstep] at hrun
    simp only [buffer_records_nil, Except.ok.injEq, Prod.mk.injEq] at hrun
    rw [← hrun.1] at hh2 hg2 hn2 hd2
    exact ⟨pending2, hh2, hp2, hg2.trans hg, hn2.trans hn, hd2.trans hd⟩
  | flush_buffer s s1 out _ hstep ih =>
    obtain ⟨pending, _, _, hg, hn, hd⟩ := ih
    have hs1 := s.flush_buffer_ok s1 out hstep
    refine ⟨[], ?_, by simp, ?_, ?_, ?_⟩
    · rw [hs1]; simp [Recorder.Holds]
    · rw [hs1]; exact hg
    · rw [hs1]; exact hn
    · rw [hs1]; exact hd

/-! ## Index expressions of the decode -/

/-- C1, as stated, fails: a record with 16 slots is admitted by `buffer_record`
into a growable store, and the following `flush_buffer` stops at
`assert(rec.num_entries < MAX_RECORD)` without passing anything to the
encoder. -/
theorem roundtrip_fails_for_wide_record :
    wide_record.descriptor.num_entries = 16 ∧
    (∀ n, n < 16 → wide_record.count n = 0) ∧
    buffer_records (init_recorder true 8000 60000) [wide_record]
      = .ok ({ m_record_buffer := [wide_record.descriptor]
               m_data_buffer := List.replicate 16 (Variant.v_int 0)
               m_buffer_can_grow := true
               m_record_buffer_size := 8000
               m_data_buffer_size := 60000 }, []) ∧
    Recorder.flush_buffer
        { m_record_buffer := [wide_record.descriptor]
          m_data_buffer := List.replicate 16 (Variant.v_int 0)
          m_buffer_can_grow := true
          m_record_buffer_size := 8000
          m_data_buffer_size := 60000 }
      = .error Fault.assertion_failed := by
  refine ⟨rfl, fun _ _ => rfl, ?_, ?_⟩
  · rfl
  · rfl

/-- C1, amended: for every sequence of records with fewer than `MAX_RECORD`
slots and non-negative counts (zero-count slots and zero-slot records
included) appended with `buffer_record` to an empty growable store, every
record is admitted without a write, and `flush_buffer` passes to the encoder,
in order, exactly the appended `(descriptor, counts, values)` tuples and
leaves the store empty. -/
theorem flush_buffer_roundtrip (n d : Nat) (rs : List Record)
    (hwf : ∀ r ∈ rs, r.WellFormed) :
    ∃ s, buffer_records (init_recorder true n d) rs = .ok (s, []) ∧
      s.m_record_buffer = rs.map Record.descriptor ∧
      s.flush_buffer = .ok (init_recorder true n d,
        rs.map (fun r => CsvSpec.write_record r.descriptor r.count r.data)) := by
  refine ⟨_, buffer_records_growable rs (init_recorder true n d) rfl, by simp [init_recorder], ?_⟩
  have hholds : ({ init_recorder true n d with
      m_record_buffer := (init_recorder true n d).m_record_buffer ++ rs.map Record.descriptor,
      m_data_buffer := (init_recorder true n d).m_data_buffer ++ rs.flatMap Record.flat }
      : Recorder).Holds rs := by
    simp [Recorder.Holds, init_recorder]
  rw [flush_buffer_holds _ rs hholds hwf]
  rfl

/-- Instance of the amended C1 with a zero-count slot and a zero-slot record. -/
theorem flush_buffer_roundtrip_witness :
    (∀ r ∈ [mixed_record, empty_record, single_slot_record 7], r.WellFormed) ∧
    ∃ s, buffer_records (init_recorder true 8000 60000)
        [mixed_record, empty_record, single_slot_record 7] = .ok (s, []) ∧
      s.m_record_buffer
        = [mixed_record, empty_record, single_slot_record 7].map Record.descriptor ∧
      s.flush_buffer = .ok (init_recorder true 8000 60000,
        [mixed_record, empty_record, single_slot_record 7].map
          (fun r => CsvSpec.write_record r.descriptor r.count r.data)) :=
  ⟨by decide, flush_buffer_roundtrip 8000 60000 _ (by decide)⟩

/-- C2: for every setting of `buffer_can_grow`, `record_buffer_size` and
`data_buffer_size`, and every sequence of well-formed records appended to the
empty store and followed by one finishing `flush_buffer`, both calls return,
the number of encoder writes equals the number of appends, and every tuple is
written exactly as often as it was appended. -/
theorem no_data_loss (g : Bool) (n d : Nat) (rs : List Record)
    (hwf : ∀ r ∈ rs, r.WellFormed) :
    ∃ s out1 out2, buffer_records (init_recorder g n d) rs = .ok (s, out1) ∧
      s.flush_buffer = .ok (init_recorder g n d, out2) ∧
      (out1 ++ out2).length = rs.length ∧
      ∀ call, (out1 ++ out2).count call = (rs.map Record.tuple).count call := by
  obtain ⟨s, out1, out2, hrun, hflush, hout⟩ := buffer_records_then_flush g n d rs hwf
  refine ⟨s, out1, out2, hrun, hflush, ?_, ?_⟩
  · rw [hout]; simp
  · intro call; rw [hout]

/-- Instance of C2: Scenario B, where the third append overflows. -/
theorem no_data_loss_witness :
    (∀ r ∈ scenario_B, r.WellFormed) ∧
    ∃ s out1 out2, buffer_records (init_recorder false 3 100) scenario_B = .ok (s, out1) ∧
      s.flush_buffer = .ok (init_recorder false 3 100, out2) ∧
      (out1 ++ out2).length = scenario_B.length ∧
      ∀ call, (out1 ++ out2).count call = (scenario_B.map Record.tuple).count call :=
  ⟨by decide, no_data_loss false 3 100 scenario_B (by decide)⟩

/-- C3: for every capacity setting and every sequence of well-formed records
appended to the empty store and followed by a `flush_buffer`, the records
handed to the encoder, direct overflow writes and buffered writes together,
are the appended records in the order of the appends. -/
theorem fifo_order (g : Bool) (n d : Nat) (rs : List Record)
    (hwf : ∀ r ∈ rs, r.WellFormed) :
    ∃ s out1 out2, buffer_records (init_recorder g n d) rs = .ok (s, out1) ∧
      s.flush_buffer = .ok (init_recorder g n d, out2) ∧
      out1 ++ out2 = rs.map (fun r => CsvSpec.write_record r.descriptor r.count r.data) :=
  buffer_records_then_flush g n d rs hwf

/-- Instance of C3 with a two-record capacity and several overflows. -/
theorem fifo_order_witness :
    (∀ r ∈ [single_slot_record 1, mixed_record, empty_record, single_slot_record 2,
        mixed_record], r.WellFormed) ∧
    ∃ s out1 out2, buffer_records (init_recorder false 2 9)
        [single_slot_record 1, mixed_record, empty_record, single_slot_record 2,
          mixed_record] = .ok (s, out1) ∧
      s.flush_buffer = .ok (init_recorder false 2 9, out2) ∧
      out1 ++ out2 = [single_slot_record 1, mixed_record, empty_record, single_slot_record 2,
          mixed_record].map (fun r => CsvSpec.write_record r.descriptor r.count r.data) :=
  ⟨by decide, fifo_order false 2 9 _ (by decide)⟩


/-- C4: with `buffer_can_grow = false` and `record_buffer_size = n`, after any
sequence of `buffer_record` calls that starts from the empty store and
returns, the number of pending records is at most `n - 1` (and below `n`
whenever `n` is positive). -/
theorem capacity_respected (n d : Nat) (rs : List Record) (s : Recorder)
    (out : List EncoderCall)
    (h : buffer_records (init_recorder false n d) rs = .ok (s, out)) :
    s.m_record_buffer.length ≤ n - 1 ∧ (0 < n → s.m_record_buffer.length < n) := by
  have hinv := buffer_records_capacity rs (init_recorder false n d) s out rfl (Or.inl rfl) h
  simp only [init_recorder] at hinv
  rcases hinv with h0 | hlt
  · simp [h0]
  · omega

/-- Instance of C4: the store of Scenario B after its five appends. -/
theorem capacity_respected_witness :
    buffer_records (init_recorder false 3 100) scenario_B
      = .ok ({ m_record_buffer := [(single_slot_record 4).descriptor,
                                   (single_slot_record 5).descriptor]
               m_data_buffer := [Variant.v_int 1, Variant.v_int 4,
                                 Variant.v_int 1, Variant.v_int 5]
               m_buffer_can_grow := false
               m_record_buffer_size := 3
               m_data_buffer_size := 100 },
              [(single_slot_record 1).tuple, (single_slot_record 2).tuple,
               (single_slot_record 3).tuple]) ∧
    (2 ≤ 3 - 1 ∧ (0 < 3 → 2 < 3)) :=
  ⟨rfl, capacity_respected 3 100 scenario_B
    { m_record_buffer := [(single_slot_record 4).descriptor,
                          (single_slot_record 5).descriptor]
      m_data_buffer := [Variant.v_int 1, Variant.v_int 4, Variant.v_int 1, Variant.v_int 5]
      m_buffer_can_grow := false
      m_record_buffer_size := 3
      m_data_buffer_size := 100 }
    [(single_slot_record 1).tuple, (single_slot_record 2).tuple,
     (single_slot_record 3).tuple] rfl⟩

/-- C5, as stated, fails for a negative count.  On the bounded store
(`record_buffer_size = 3`, `data_buffer_size = 100`, no growth) a one-slot
record with count -5 has `total = -4`, so both tests of the stated policy hold
(`0 + 1 < 3` and `0 + (-4) < 100`), yet `buffer_record` does not buffer it and
writes it directly: the sum `size() + total` is unsigned and wraps.  On a
growable store a two-slot record with counts -1 and 2 has `total = 3`, yet
the data buffer grows by 4 elements. -/
theorem admission_fails_for_negative_count :
    ((negative_count_record.descriptor.num_entries : Int)
        + ((List.range negative_count_record.descriptor.num_entries).map
            negative_count_record.count).sum = -4) ∧
    ((init_recorder false 3 100).m_record_buffer.length + 1 < 3 ∧
      (((init_recorder false 3 100).m_data_buffer.length : Nat) : Int) + (-4) < 100) ∧
    (init_recorder false 3 100).buffer_record negative_count_record.descriptor
        negative_count_record.count negative_count_record.data
      = .ok (init_recorder false 3 100,
          [{ descriptor := negative_count_record.descriptor, count := [-5], data := [[]] }]) ∧
    ((mixed_sign_record.descriptor.num_entries : Int)
        + ((List.range mixed_sign_record.descriptor.num_entries).map
            mixed_sign_record.count).sum = 3) ∧
    (init_recorder true 3 100).buffer_record mixed_sign_record.descriptor
        mixed_sign_record.count mixed_sign_record.data
      = .ok ({ m_record_buffer := [mixed_sign_record.descriptor]
               m_data_buffer := [Variant.v_int (-1), Variant.v_int 2,
                                 Variant.v_uint 0, Variant.v_uint 1]
               m_buffer_can_grow := true
               m_record_buffer_size := 3
               m_data_buffer_size := 100 }, []) :=
  ⟨by decide, by decide, rfl, by decide, rfl⟩

/-- C5, amended: for a record whose counts are non-negative, with
`total = num_entries + sum of counts`: the record is buffered exactly when
`buffer_can_grow` holds or both `pending records + 1 < record_buffer_size` and
`pending data + total < data_buffer_size` (strict on both sides).  When it is
buffered nothing is written, the data buffer is extended by the `num_entries`
counts as integer Values followed by the values of each slot in slot order,
its length grows by exactly `total`, and the descriptor is appended to the
pending descriptors.  Otherwise the call is the flush followed by the direct
write, and the record is not pending afterwards. -/
theorem buffer_record_admission (s : Recorder) (r : Record)
    (hcount : ∀ n, n < r.descriptor.num_entries → 0 ≤ r.count n) :
    let total : Int :=
      (r.descriptor.num_entries : Int) + ((List.range r.descriptor.num_entries).map r.count).sum
    let admitted : Prop :=
      s.m_buffer_can_grow = true ∨
        (s.m_record_buffer.length + 1 < s.m_record_buffer_size ∧
         (s.m_data_buffer.length : Int) + total < (s.m_data_buffer_size : Int))
    let extended : List Variant :=
      s.m_data_buffer
        ++ ((List.range r.descriptor.num_entries).map r.count).map Variant.v_int
        ++ ((List.range r.descriptor.num_entries).map
              (fun n => (List.range (r.count n).toNat).map (r.data n))).flatten
    (admitted →
      s.buffer_record r.descriptor r.count r.data
        = .ok ({ s with m_record_buffer := s.m_record_buffer ++ [r.descriptor],
                        m_data_buffer := extended }, []) ∧
      (extended.length : Int) = (s.m_data_buffer.length : Int) + total) ∧
    (¬ admitted →
      s.buffer_record r.descriptor r.count r.data
        = (match s.flush_buffer with
           | .error e => .error e
           | .ok (s1, out) =>
             .ok (s1, out ++ [CsvSpec.write_record r.descriptor r.count r.data])) ∧
      ∀ s1 out, s.buffer_record r.descriptor r.count r.data = .ok (s1, out) →
        s1.m_record_buffer = [] ∧ s1.m_data_buffer = [] ∧
        out.getLast? = some (CsvSpec.write_record r.descriptor r.count r.data)) := by
  intro total admitted extended
  have hsum := counts_sum_nonneg r hcount
  have htotal : buffer_record_total r.descriptor r.count = total :=
    buffer_record_total_eq r.descriptor r.count
  have hnonneg : 0 ≤ total := by
    show 0 ≤ (r.descriptor.num_entries : Int) + _
    omega
  have hsize := size_plus_int_nonneg s.m_data_buffer.length total hnonneg
  have hiff : s.admits r.descriptor r.count = true ↔ admitted := by
    show _ ↔ (_ ∨ (_ ∧ _))
    simp only [Recorder.admits, htotal, Bool.or_eq_true, Bool.and_eq_true, decide_eq_true_eq]
    constructor
    · rintro (hg | ⟨h1, h2⟩)
      · exact Or.inl hg
      · exact Or.inr ⟨h1, by omega⟩
    · rintro (hg | ⟨h1, h2⟩)
      · exact Or.inl hg
      · exact Or.inr ⟨h1, by omega⟩
  have hext : extended = s.m_data_buffer ++ r.flat := by
    show _ ++ _ ++ _ = _
    rw [Record.flat_eq, List.append_assoc]
    rfl
  constructor
  · intro hadm
    constructor
    · rw [s.buffer_record_admitted r (hiff.mpr hadm), hext]
    · rw [hext, List.length_append]
      have := Record.flat_length r hcount
      push_cast
      show _ = _ + ((r.descriptor.num_entries : Int) + _)
      omega
  · intro hnot
    have hrej : s.admits r.descriptor r.count = false := by
      cases hb : s.admits r.descriptor r.count with
      | false => rfl
      | true => exact absurd (hiff.mp hb) hnot
    have hstep := s.buffer_record_rejected r hrej
    refine ⟨hstep, ?_⟩
    intro s1 out hok
    rw [hstep] at hok
    cases hf : s.flush_buffer with
    | error e => rw [hf] at hok; cases hok
    | ok p =>
      obtain ⟨s0, out0⟩ := p
      rw [hf] at hok
      simp only [Except.ok.injEq, Prod.mk.injEq] at hok
      have hs0 := s.flush_buffer_ok s0 out0 hf
      rw [← hok.1, ← hok.2, hs0]
      simp [Record.tuple]

/-- Instance of the amended C5: one pending record, and a record whose `total` of 6 just
fits below a data capacity of 9. -/
theorem buffer_record_admission_witness :
    (∀ n, n < mixed_record.descriptor.num_entries → 0 ≤ mixed_record.count n) ∧
    (let s : Recorder :=
      { m_record_buffer := [(single_slot_record 1).descriptor]
        m_data_buffer := [Variant.v_int 1, Variant.v_int 1]
        m_buffer_can_grow := false
        m_record_buffer_size := 3
        m_data_buffer_size := 9 }
     s.buffer_record mixed_record.descriptor mixed_record.count mixed_record.data
       = .ok ({ s with
          m_record_buffer := [(single_slot_record 1).descriptor, mixed_record.descriptor],
          m_data_buffer := [Variant.v_int 1, Variant.v_int 1,
            Variant.v_int 0, Variant.v_int 2, Variant.v_int 1,
            Variant.v_uint 10, Variant.v_uint 11, Variant.v_bool true] }, [])) :=
  ⟨by decide,
   ((buffer_record_admission
      { m_record_buffer := [(single_slot_record 1).descriptor]
        m_data_buffer := [Variant.v_int 1, Variant.v_int 1]
        m_buffer_can_grow := false
        m_record_buffer_size := 3
        m_data_buffer_size := 9 }
      mixed_record (by decide)).1 (Or.inr (by decide))).1⟩

/-- C6, as stated, fails: a bounded store (`record_buffer_size = 3`,
`data_buffer_size = 100`, no growth) buffers a 16-slot record and a
single-slot record; the third record is not admitted, and the flush inside
`buffer_record` stops at `assert(rec.num_entries < MAX_RECORD)`: neither the
pending records nor the triggering record are written. -/
theorem overflow_fails_for_wide_pending_record :
    buffer_records (init_recorder false 3 100) [wide_record, single_slot_record 2]
      = .ok ({ m_record_buffer := [wide_record.descriptor, (single_slot_record 2).descriptor]
               m_data_buffer := List.replicate 16 (Variant.v_int 0)
                 ++ [Variant.v_int 1, Variant.v_int 2]
               m_buffer_can_grow := false
               m_record_buffer_size := 3
               m_data_buffer_size := 100 }, []) ∧
    Recorder.admits
        { m_record_buffer := [wide_record.descriptor, (single_slot_record 2).descriptor]
          m_data_buffer := List.replicate 16 (Variant.v_int 0)
            ++ [Variant.v_int 1, Variant.v_int 2]
          m_buffer_can_grow := false
          m_record_buffer_size := 3
          m_data_buffer_size := 100 }
        (single_slot_record 3).descriptor (single_slot_record 3).count = false ∧
    Recorder.buffer_record
        { m_record_buffer := [wide_record.descriptor, (single_slot_record 2).descriptor]
          m_data_buffer := List.replicate 16 (Variant.v_int 0)
            ++ [Variant.v_int 1, Variant.v_int 2]
          m_buffer_can_grow := false
          m_record_buffer_size := 3
          m_data_buffer_size := 100 }
        (single_slot_record 3).descriptor (single_slot_record 3).count
        (single_slot_record 3).data
      = .error Fault.assertion_failed :=
  ⟨rfl, rfl, rfl⟩

/-- C6, amended: when a record is not admitted by a store whose pending records
`pending` each have fewer than `MAX_RECORD` slots and non-negative counts,
`buffer_record` writes the pending records in arrival order, then the
triggering record, and returns with no pending record and an empty data
buffer.  Scenario B (`record_buffer_size = 3`,
`data_buffer_size = 100`, no growth, five single-slot single-value records):
the first two appends are buffered without a write, the third is not
admitted and gives the writes of records 1, 2, 3 in this order, and the
fourth and fifth are buffered without a write. -/
theorem buffer_record_overflow (s : Recorder) (pending : List Record) (r : Record)
    (hholds : s.Holds pending) (hwf : ∀ p ∈ pending, p.WellFormed)
    (hrej : s.admits r.descriptor r.count = false) :
    s.buffer_record r.descriptor r.count r.data
      = .ok ({ s with m_record_buffer := [], m_data_buffer := [] },
          pending.map (fun p => CsvSpec.write_record p.descriptor p.count p.data)
            ++ [CsvSpec.write_record r.descriptor r.count r.data]) ∧
    (buffer_records (init_recorder false 3 100) [single_slot_record 1, single_slot_record 2]
      = .ok ({ m_record_buffer := [(single_slot_record 1).descriptor,
                                   (single_slot_record 2).descriptor]
               m_data_buffer := [Variant.v_int 1, Variant.v_int 1,
                                 Variant.v_int 1, Variant.v_int 2]
               m_buffer_can_grow := false
               m_record_buffer_size := 3
               m_data_buffer_size := 100 }, []) ∧
     buffer_records (init_recorder false 3 100)
        [single_slot_record 1, single_slot_record 2, single_slot_record 3]
      = .ok (init_recorder false 3 100,
          [(single_slot_record 1).tuple, (single_slot_record 2).tuple,
           (single_slot_record 3).tuple]) ∧
     buffer_records (init_recorder false 3 100) [single_slot_record 4, single_slot_record 5]
      = .ok ({ m_record_buffer := [(single_slot_record 4).descriptor,
                                   (single_slot_record 5).descriptor]
               m_data_buffer := [Variant.v_int 1, Variant.v_int 4,
                                 Variant.v_int 1, Variant.v_int 5]
               m_buffer_can_grow := false
               m_record_buffer_size := 3
               m_data_buffer_size := 100 }, [])) := by
  refine ⟨?_, rfl, rfl, rfl⟩
  rw [s.buffer_record_rejected r hrej, flush_buffer_holds s pending hholds hwf]
  rfl

/-- Instance of the amended C6: the third append of Scenario B. -/
theorem buffer_record_overflow_witness :
    (let s : Recorder :=
      { m_record_buffer := [(single_slot_record 1).descriptor,
                            (single_slot_record 2).descriptor]
        m_data_buffer := [Variant.v_int 1, Variant.v_int 1, Variant.v_int 1, Variant.v_int 2]
        m_buffer_can_grow := false
        m_record_buffer_size := 3
        m_data_buffer_size := 100 }
     s.Holds [single_slot_record 1, single_slot_record 2] ∧
     s.admits (single_slot_record 3).descriptor (single_slot_record 3).count = false ∧
     s.buffer_record (single_slot_record 3).descriptor (single_slot_record 3).count
         (single_slot_record 3).data
       = .ok (init_recorder false 3 100,
           [(single_slot_record 1).tuple, (single_slot_record 2).tuple,
            (single_slot_record 3).tuple])) :=
  ⟨⟨rfl, rfl⟩, rfl,
   (buffer_record_overflow
      { m_record_buffer := [(single_slot_record 1).descriptor,
                            (single_slot_record 2).descriptor]
        m_data_buffer := [Variant.v_int 1, Variant.v_int 1, Variant.v_int 1, Variant.v_int 2]
        m_buffer_can_grow := false
        m_record_buffer_size := 3
        m_data_buffer_size := 100 }
      [single_slot_record 1, single_slot_record 2] (single_slot_record 3)
      ⟨rfl, rfl⟩ (by decide) rfl).1⟩

/-- C7, as stated, fails: the store reached from the empty store by
`buffer_record` of a single-slot record and of a 16-slot record still holds
both records after `flush_buffer` is called, because the flush stops at
`assert(rec.num_entries < MAX_RECORD)`. -/
theorem flush_fails_for_wide_pending_record :
    buffer_records (init_recorder false 8 100) [single_slot_record 1, wide_record]
      = .ok ({ m_record_buffer := [(single_slot_record 1).descriptor, wide_record.descriptor]
               m_data_buffer := [Variant.v_int 1, Variant.v_int 1]
                 ++ List.replicate 16 (Variant.v_int 0)
               m_buffer_can_grow := false
               m_record_buffer_size := 8
               m_data_buffer_size := 100 }, []) ∧
    Recorder.flush_buffer
        { m_record_buffer := [(single_slot_record 1).descriptor, wide_record.descriptor]
          m_data_buffer := [Variant.v_int 1, Variant.v_int 1]
            ++ List.replicate 16 (Variant.v_int 0)
          m_buffer_can_grow := false
          m_record_buffer_size := 8
          m_data_buffer_size := 100 }
      = .error Fault.assertion_failed :=
  ⟨rfl, rfl⟩

/-- C7, amended: for every store state reachable from the empty store by
`buffer_record` calls with records of fewer than `MAX_RECORD` slots and
non-negative counts and by `flush_buffer` calls, `flush_buffer` returns
with no pending record and an empty data buffer; a second `flush_buffer`
then performs no write and leaves that state unchanged, so two consecutive
flushes give the output and final state of one; and on a reachable state
without pending records `flush_buffer` performs no write and leaves the state
unchanged. -/
theorem flush_buffer_idempotent (g : Bool) (n d : Nat) (s : Recorder)
    (h : Reachable g n d s) :
    ∃ s1 out, s.flush_buffer = .ok (s1, out) ∧
      s1.m_record_buffer = [] ∧ s1.m_data_buffer = [] ∧
      s1.flush_buffer = .ok (s1, []) ∧
      (s.m_record_buffer = [] → s.flush_buffer = .ok (s, [])) := by
  obtain ⟨pending, hh, hp, _, _, _⟩ := reachable_holds g n d s h
  refine ⟨{ s with m_record_buffer := [], m_data_buffer := [] },
    pending.map Record.tuple, flush_buffer_holds s pending hh hp, rfl, rfl, rfl, ?_⟩
  intro hempty
  have hdata : s.m_data_buffer = [] := by
    obtain ⟨h1, h2⟩ := hh
    rw [hempty] at h1
    have hnil : pending = [] := List.map_eq_nil_iff.mp h1.symm
    rw [h2, hnil]
    rfl
  rw [s.flush_buffer_empty hempty]
  cases s
  simp only at hempty hdata
  rw [hempty, hdata]

/-- Instance of the amended C7: the store after one admitted record. -/
theorem flush_buffer_idempotent_witness :
    Reachable false 3 100
      { m_record_buffer := [(single_slot_record 9).descriptor]
        m_data_buffer := [Variant.v_int 1, Variant.v_int 9]
        m_buffer_can_grow := false
        m_record_buffer_size := 3
        m_data_buffer_size := 100 } ∧
    ∃ s1 out,
      Recorder.flush_buffer
        { m_record_buffer := [(single_slot_record 9).descriptor]
          m_data_buffer := [Variant.v_int 1, Variant.v_int 9]
          m_buffer_can_grow := false
          m_record_buffer_size := 3
          m_data_buffer_size := 100 } = .ok (s1, out) ∧
      s1.m_record_buffer = [] ∧ s1.m_data_buffer = [] ∧
      s1.flush_buffer = .ok (s1, []) ∧
      (([(single_slot_record 9).descriptor] : List RecordDescriptor) = [] →
        Recorder.flush_buffer
          { m_record_buffer := [(single_slot_record 9).descriptor]
            m_data_buffer := [Variant.v_int 1, Variant.v_int 9]
            m_buffer_can_grow := false
            m_record_buffer_size := 3
            m_data_buffer_size := 100 }
          = .ok ({ m_record_buffer := [(single_slot_record 9).descriptor]
                   m_data_buffer := [Variant.v_int 1, Variant.v_int 9]
                   m_buffer_can_grow := false
                   m_record_buffer_size := 3
                   m_data_buffer_size := 100 }, [])) :=
  ⟨Reachable.buffer_record (init_recorder false 3 100) _ [] (single_slot_record 9)
      Reachable.init (by decide) rfl,
   flush_buffer_idempotent false 3 100 _
    (Reachable.buffer_record (init_recorder false 3 100) _ [] (single_slot_record 9)
      Reachable.init (by decide) rfl)⟩

/-- C9 fails on the code: the lambda connected to `finish_evt` runs
`flush_buffer` without taking `m_stream_mutex`, whereas both `write_record`
subscribers (`recfn`, `buffn`) take it. -/
theorem finish_evt_flushes_without_lock (s : Recorder) :
    s.register_callbacks.finish_evt.lock_guard = false ∧
    s.register_callbacks.finish_evt.body s = s.flush_buffer ∧
    s.register_callbacks.write_record.lock_guard = true := by
  refine ⟨rfl, rfl, ?_⟩
  unfold Recorder.register_callbacks
  split <;> rfl

/-- C10: with `buffer_can_grow = false` and `record_buffer_size ≤ 1` or
`data_buffer_size = 0`, `buffer_record` on the empty store admits no record:
for every sequence of records the writes are one direct write per record, in
order, which is what the unbuffered subscriber selected by
`register_callbacks` for `record_buffer_size = 0` writes, and the store is
empty after every call. -/
theorem degenerate_buffer_is_unbuffered (n d d0 : Nat) (rs : List Record)
    (h : n ≤ 1 ∨ d = 0) :
    buffer_records (init_recorder false n d) rs
      = .ok (init_recorder false n d,
          rs.map (fun r => CsvSpec.write_record r.descriptor r.count r.data)) ∧
    emit (init_recorder false 0 d0).register_callbacks.write_record.body
        (init_recorder false 0 d0) rs
      = .ok (init_recorder false 0 d0,
          rs.map (fun r => CsvSpec.write_record r.descriptor r.count r.data)) ∧
    ∀ k, ∃ out, buffer_records (init_recorder false n d) (rs.take k)
      = .ok (init_recorder false n d, out) := by
  have key : ∀ l : List Record, buffer_records (init_recorder false n d) l
      = .ok (init_recorder false n d,
          l.map (fun r => CsvSpec.write_record r.descriptor r.count r.data)) := by
    intro l
    induction l with
    | nil => rfl
    | cons r l ih =>
      have hrej : (init_recorder false n d).admits r.descriptor r.count = false := by
        simp only [Recorder.admits, init_recorder, Bool.false_or, List.length_nil,
          Bool.and_eq_false_iff, decide_eq_false_iff_not]
        rcases h with h | h
        · left; omega
        · right; omega
      have hstep := (init_recorder false n d).buffer_record_rejected r hrej
      rw [(init_recorder false n d).flush_buffer_empty rfl] at hstep
      rw [buffer_records_cons, hstep]
      simp only [init_recorder] at ih ⊢
      simp only [ih]
      rfl
  have direct : ∀ (s : Recorder) (l : List Record), emit recfn.body s l
      = .ok (s, l.map (fun r => CsvSpec.write_record r.descriptor r.count r.data)) := by
    intro s l
    induction l with
    | nil => rfl
    | cons r l ih => simp only [emit, recfn, List.map_cons] at ih ⊢; simp only [ih]; rfl
  refine ⟨key rs, ?_, fun k => ⟨_, key (rs.take k)⟩⟩
  have hsel : (init_recorder false 0 d0).register_callbacks.write_record = recfn := by
    simp [Recorder.register_callbacks, init_recorder]
  rw [hsel]
  exact direct _ rs

/-- Instance of C10: Scenario B with `record_buffer_size = 1`. -/
theorem degenerate_buffer_is_unbuffered_witness :
    ((1 : Nat) ≤ 1 ∨ (100 : Nat) = 0) ∧
    (buffer_records (init_recorder false 1 100) scenario_B
      = .ok (init_recorder false 1 100,
          scenario_B.map (fun r => CsvSpec.write_record r.descriptor r.count r.data)) ∧
    emit (init_recorder false 0 100).register_callbacks.write_record.body
        (init_recorder false 0 100) scenario_B
      = .ok (init_recorder false 0 100,
          scenario_B.map (fun r => CsvSpec.write_record r.descriptor r.count r.data)) ∧
    ∀ k, ∃ out, buffer_records (init_recorder false 1 100) (scenario_B.take k)
      = .ok (init_recorder false 1 100, out)) :=
  ⟨by decide, degenerate_buffer_is_unbuffered 1 100 100 scenario_B (by decide)⟩

end Caliper
